import Mathlib

/-!
Verification of the reference-post retrieval and ranking subsystem of the
LinkedIn-Post-Generator repository (`reference_posts.py`, class `FewShotPosts`).

The embedding models JSON values, the corpus loader (`load_posts` /
`__init__`), the length classifier (`categorize_length`), the tag index
(`unique_tags` / `get_tags`) and the exemplar selector
(`get_filtered_posts` / `get_top_engaging_posts`).

Modelling conventions:
* JSON numbers are integers (`Int`); the corpus schema documents integer
  `line_count` and `engagement` fields.
* `pandas` NA / JSON null / missing keys are `Option`/`jnull` as appropriate.
* Python `sorted(key=..., reverse=True)` is a stable descending sort; it is
  embedded as `List.mergeSort` with the boolean relation
  `a.engagement ≥ b.engagement`, which is stable and sorts descending.
* Python slicing `xs[:n]` is `pySlice`, covering negative `n`.
* `pandas.DataFrame` columns are tracked as a list of column names; after
  every load path all six schema columns are present, in the order used by
  the fallback constructors in the source.
-/

namespace FewShotPosts

/-- A scalar JSON value (an element of a `tags` array in the model; arrays
are modelled one level deep, which covers every behaviour the subsystem
distinguishes). -/
inductive JScalar where
  | jstr (s : String)
  | jnum (n : Int)
  | jbool (b : Bool)
  | jnull
deriving DecidableEq, Repr

/-- Whether a scalar is a JSON string (`isinstance(tag, str)`). -/
def JScalar.isStr : JScalar → Bool
  | .jstr _ => true
  | _ => false

/-- A JSON-ish value as it appears in a corpus cell after `json.load` /
`pd.json_normalize`.  Numbers are modelled as integers. -/
inductive JVal where
  | jstr (s : String)
  | jnum (n : Int)
  | jbool (b : Bool)
  | jnull
  | jlist (xs : List JScalar)
deriving DecidableEq, Repr

open JVal

/-- Python `str()` conversion as applied by `.astype(str)`.  A list renders
with surrounding brackets; the exact inner rendering is irrelevant to the
filter (no bracketed rendering equals `"english"`). -/
def pyStr : JVal → String
  | jstr s => s
  | jnum n => toString n
  | jbool b => if b then "True" else "False"
  | jnull => "None"
  | jlist _ => "[...]"

/-- Python `str.lower()`, as applied by `.str.lower()`: lowercase each
character. -/
def pyLower (s : String) : String := ⟨s.data.map Char.toLower⟩

/-- `pd.to_numeric(x, errors='coerce')` on one cell: numbers pass through,
numeric strings parse, booleans become 0/1, everything else becomes NA
(`none`).  A missing cell (`none`) is NaN and stays NA. -/
def toNumeric : Option JVal → Option Int
  | none => none
  | some (jnum n) => some n
  | some (jstr s) => s.toInt?
  | some (jbool b) => some (if b then 1 else 0)
  | some jnull => none
  | some (jlist _) => none

/-- `FewShotPosts.categorize_length`: NA → "Unknown"; otherwise `< 5` →
"Short", `5 ≤ c ≤ 10` → "Medium", else "Long". -/
def categorize_length : Option Int → String
  | none => "Unknown"
  | some c => if c < 5 then "Short" else if 5 ≤ c ∧ c ≤ 10 then "Medium" else "Long"

/-- One raw post object from the JSON file: each schema key is optionally
present with an arbitrary JSON value. -/
structure RawPost where
  text : Option JVal := none
  line_count : Option JVal := none
  tags : Option JVal := none
  language : Option JVal := none
  engagement : Option JVal := none
deriving DecidableEq, Repr

/-- One row of the normalized DataFrame after `load_posts` has run its
cleaning steps. -/
structure Record where
  text : JVal
  line_count : Option Int
  tags : List JScalar
  language : JVal
  length : String
  engagement : Int
deriving DecidableEq, Repr

/-- The normalized table: column names plus rows. -/
structure DataFrame where
  columns : List String
  rows : List Record
deriving DecidableEq, Repr

/-- The six schema columns, in the order of the fallback
`pd.DataFrame(columns=[...])` constructors in the source. -/
def stdCols : List String :=
  ["text", "line_count", "tags", "language", "length", "engagement"]

/-- Observable state of a `FewShotPosts` instance. -/
structure State where
  df : Option DataFrame
  unique_tags : List String
deriving DecidableEq, Repr

/-- The empty schema-complete table installed on every failed load. -/
def emptyFrame : DataFrame := ⟨stdCols, []⟩

/-- Cleaning of one row.  `textCol` says whether the `text` column exists in
the normalized frame (it exists iff some post object has the key): when it
does, a missing cell stays NaN (`jnull`); when the whole column is missing
the loader fills `""`.  For the other columns the per-cell outcome is the
same whether the column is synthesized wholesale or backfilled cell-wise,
so no flag is needed. -/
def loadRecord (textCol : Bool) (p : RawPost) : Record where
  text := match p.text with
    | some v => v
    | none => if textCol then jnull else jstr ""
  line_count := toNumeric p.line_count
  tags := match p.tags with
    | some (jlist xs) => xs
    | _ => []
  language := match p.language with
    | some jnull | none => jstr "English"
    | some v => v
  length := categorize_length (toNumeric p.line_count)
  engagement := (toNumeric p.engagement).getD 0

/-- The string tags of one cleaned row (non-strings skipped), as in the
`all_tags` flattening comprehension. -/
def stringTags (r : Record) : List String :=
  r.tags.filterMap fun v => match v with | JScalar.jstr s => some s | _ => none

/-- `sorted(list(set(all_tags)))`: de-duplicate, then sort lexicographically
(case-sensitive code-point order, as native Python string comparison). -/
def sortedUniqueTags (rows : List Record) : List String :=
  ((rows.flatMap stringTags).dedup).mergeSort (fun a b => decide (a ≤ b))

/-- What `json.load` produced (when the file could be opened at all). -/
inductive FileContent where
  | badJson
  | parsed (posts : List RawPost)
deriving DecidableEq, Repr

/-- `FewShotPosts.load_posts` on an opened file.  The prior state `_s` is
passed to reflect that the method runs on an instance, but every path
overwrites both `self.df` and `self.unique_tags`. -/
def load_posts (_s : State) (c : FileContent) : State :=
  match c with
  | .badJson => ⟨some emptyFrame, []⟩
  | .parsed posts =>
    if posts.isEmpty then ⟨some emptyFrame, []⟩
    else
      let textCol := posts.any fun p => p.text.isSome
      let rows := posts.map (loadRecord textCol)
      ⟨some ⟨stdCols, rows⟩, sortedUniqueTags rows⟩

/-- Input to construction: the file cannot be opened (`FileNotFoundError`,
raised before `load_posts` mutates anything), some other I/O failure
(caught by the generic `except Exception` arm), or readable content. -/
inductive LoadInput where
  | fileMissing
  | ioError
  | content (c : FileContent)
deriving DecidableEq, Repr

/-- `FewShotPosts.__init__`: attempt the load; on `FileNotFoundError` or any
other exception fall back to the empty schema-complete frame. -/
def init (inp : LoadInput) : State :=
  match inp with
  | .fileMissing => ⟨some emptyFrame, []⟩
  | .ioError => ⟨some emptyFrame, []⟩
  | .content c => load_posts ⟨none, []⟩ c

/-- `FewShotPosts.get_tags`. -/
def get_tags (s : State) : List String := s.unique_tags

/-- The record projection returned by `get_filtered_posts`
(`df_filtered[['text', 'tags', 'length', 'engagement']]`). -/
structure PostOut where
  text : JVal
  tags : List JScalar
  length : String
  engagement : Int
deriving DecidableEq, Repr

/-- Projection of a row to the returned dict shape. -/
def project (r : Record) : PostOut :=
  ⟨r.text, r.tags, r.length, r.engagement⟩

/-- The row filter of `get_filtered_posts`: `tags` is a list (always true
after load, re-checked defensively) containing `tag` by Python `==`
(for a string `tag`, exact case-sensitive string equality); `language`
stringified and lowercased equals `"english"`; `length` equals the request. -/
def rowMatches (length tag : String) (r : Record) : Bool :=
  r.tags.contains (JScalar.jstr tag) &&
    (pyLower (pyStr r.language) == "english") &&
    (r.length == length)

/-- `FewShotPosts.get_filtered_posts`. -/
def get_filtered_posts (s : State) (length tag : String) : List PostOut :=
  match s.df with
  | none => []
  | some df =>
    if df.rows.isEmpty then []
    else if !(["tags", "language", "length", "text", "engagement"].all
        fun c => df.columns.contains c) then []
    else (df.rows.filter (rowMatches length tag)).map project

/-- Python `xs[:n]` including negative `n` (drop the last `|n|` elements,
clamped at empty). -/
def pySlice (n : Int) (xs : List PostOut) : List PostOut :=
  if 0 ≤ n then xs.take n.toNat else xs.take (xs.length - (-n).toNat)

/-- The boolean ordering used for ranking: engagement descending.  Ties are
`true` both ways, so the stable `mergeSort` keeps their original order,
exactly as Python `sorted(key=..., reverse=True)` does. -/
def engGE (a b : PostOut) : Bool := decide (b.engagement ≤ a.engagement)

/-- `FewShotPosts.get_top_engaging_posts`. -/
def get_top_engaging_posts (s : State) (length tag : String) (n : Int) : List PostOut :=
  match s.df with
  | none => []
  | some df =>
    if df.rows.isEmpty then []
    else if !(df.columns.contains "engagement") then []
    else
      let filtered := get_filtered_posts s length tag
      if filtered.isEmpty then []
      else pySlice n (filtered.mergeSort engGE)

/-! ### Sample data (the concrete scenario from the corpus documentation) -/

/-- `[{"text":"A","line_count":3,"tags":["AI"],"language":"English","engagement":10},
     {"text":"B","line_count":4,"tags":["AI"],"language":"English","engagement":50}]` -/
def samplePosts : List RawPost :=
  [{ text := some (jstr "A"), line_count := some (jnum 3),
     tags := some (jlist [JScalar.jstr "AI"]), language := some (jstr "English"),
     engagement := some (jnum 10) },
   { text := some (jstr "B"), line_count := some (jnum 4),
     tags := some (jlist [JScalar.jstr "AI"]), language := some (jstr "English"),
     engagement := some (jnum 50) }]

/-- The two cleaned sample rows. -/
def sampleRows : List Record := samplePosts.map (loadRecord true)

/-! ### Helper lemmas about the ranking order -/

theorem engGE_trans : ∀ (a b c : PostOut), engGE a b → engGE b c → engGE a c := by
  intro a b c hab hbc
  simp only [engGE, decide_eq_true_eq] at *
  omega

theorem engGE_total : ∀ (a b : PostOut), engGE a b || engGE b a := by
  intro a b
  rcases le_total a.engagement b.engagement with h | h <;> simp [engGE, h]

/-- Stability of the ranking sort: restricting the ranked list to one
engagement value gives back the unranked restriction, in its original
order. -/
theorem mergeSort_filter_eng (l : List PostOut) (e : Int) :
    (l.mergeSort engGE).filter (fun p => p.engagement == e)
      = l.filter (fun p => p.engagement == e) := by
  set p : PostOut → Bool := fun q => q.engagement == e with hp
  have hpw : (l.filter p).Pairwise (fun a b => engGE a b = true) := by
    apply List.pairwise_of_forall_mem_list
    intro a ha b hb
    have ha' := (List.mem_filter.mp ha).2
    have hb' := (List.mem_filter.mp hb).2
    simp only [hp, beq_iff_eq] at ha' hb'
    simp [engGE, ha', hb']
  have hsub : List.Sublist (l.filter p) (l.mergeSort engGE) :=
    List.sublist_mergeSort engGE_trans engGE_total hpw (List.filter_sublist l)
  have hself : (l.filter p).filter p = l.filter p :=
    List.filter_eq_self.mpr fun a ha => (List.mem_filter.mp ha).2
  have h1 : List.Sublist (l.filter p) ((l.mergeSort engGE).filter p) := by
    have := hsub.filter p
    rwa [hself] at this
  have hperm : List.Perm ((l.mergeSort engGE).filter p) (l.filter p) :=
    (List.mergeSort_perm l engGE).filter p
  exact (h1.eq_of_length hperm.length_eq.symm).symm

/-! ### The C3 claim about the length classifier, as literally stated -/

/-- "categorize returns Short iff c < 5, Medium iff 5 ≤ c ≤ 10, Long iff
c > 10, and Unknown iff c is not a valid non-negative integer". -/
def lengthClaim (c : Option Int) : Prop :=
  (categorize_length c = "Short" ↔ ∃ k, c = some k ∧ k < 5) ∧
  (categorize_length c = "Medium" ↔ ∃ k, c = some k ∧ 5 ≤ k ∧ k ≤ 10) ∧
  (categorize_length c = "Long" ↔ ∃ k, c = some k ∧ 10 < k) ∧
  (categorize_length c = "Unknown" ↔ ¬ ∃ k, c = some k ∧ 0 ≤ k)

/-- C3 (counterexample): at line count `-1` the claim fails: `-1` is not a
valid non-negative integer, so the claim demands "Unknown", but
`categorize_length` returns "Short" (the code only tests `count < 5`). -/
theorem c3_counterexample : ¬ lengthClaim (some (-1)) := by
  intro h
  have h4 := h.2.2.2
  have hu : categorize_length (some (-1)) = "Unknown" := by
    apply h4.mpr
    rintro ⟨k, hk, hk0⟩
    cases hk
    omega
  have hs : categorize_length (some (-1)) = "Short" := by decide
  rw [hs] at hu
  exact absurd hu (by decide)

/-- C3 (amended): "Unknown" is returned exactly for non-numeric/unset input
(`none`); any integer, including a negative one, is classified by the
thresholds: `< 5` → "Short", `5 ≤ c ≤ 10` → "Medium", `> 10` → "Long". -/
theorem c3_categorize_amended (c : Option Int) :
    (categorize_length c = "Short" ↔ ∃ k, c = some k ∧ k < 5) ∧
    (categorize_length c = "Medium" ↔ ∃ k, c = some k ∧ 5 ≤ k ∧ k ≤ 10) ∧
    (categorize_length c = "Long" ↔ ∃ k, c = some k ∧ 10 < k) ∧
    (categorize_length c = "Unknown" ↔ c = none) := by
  cases c with
  | none => simp [categorize_length]
  | some k =>
    simp only [categorize_length, Option.some.injEq]
    by_cases h1 : k < 5
    · simp [if_pos h1]
      omega
    · by_cases h2 : 5 ≤ k ∧ k ≤ 10
      · rw [if_neg h1, if_pos h2]
        simp
        omega
      · rw [if_neg h1, if_neg h2]
        simp
        omega

/-- C1: for every loaded table, `get_filtered_posts` returns exactly the
projections of the rows whose `tags` list contains `tag` (exact,
case-sensitive string equality), whose stringified `language` lowercases to
`"english"`, and whose derived `length` equals the request — no false
positives, no false negatives. -/
theorem c1_filter_exact (rows : List Record) (tags0 : List String)
    (length tag : String) (p : PostOut) :
    p ∈ get_filtered_posts ⟨some ⟨stdCols, rows⟩, tags0⟩ length tag ↔
      ∃ r, r ∈ rows ∧
        (JScalar.jstr tag ∈ r.tags ∧ pyLower (pyStr r.language) = "english" ∧
          r.length = length) ∧ project r = p := by
  have hcols : (["tags", "language", "length", "text", "engagement"].all
      fun c => stdCols.contains c) = true := by decide
  simp only [get_filtered_posts, hcols, Bool.not_true, Bool.false_eq_true, if_false]
  by_cases hempty : rows.isEmpty
  · rw [if_pos hempty]
    rw [List.isEmpty_iff] at hempty
    subst hempty
    simp
  · rw [if_neg hempty]
    simp only [List.mem_map, List.mem_filter, rowMatches, Bool.and_eq_true,
      beq_iff_eq, List.contains_iff_exists_mem_beq]
    constructor
    · rintro ⟨r, ⟨hr, ⟨⟨t, ht, hbeq⟩, hlang⟩, hlen⟩, hproj⟩
      refine ⟨r, hr, ⟨?_, hlang, hlen⟩, hproj⟩
      rwa [← hbeq] at ht
    · rintro ⟨r, hr, ⟨htag, hlang, hlen⟩, hproj⟩
      exact ⟨r, ⟨hr, ⟨⟨JScalar.jstr tag, htag, by simp⟩, hlang⟩, hlen⟩, hproj⟩

/-- `pySlice` only ever keeps elements, in order. -/
theorem pySlice_sublist (n : Int) (xs : List PostOut) :
    List.Sublist (pySlice n xs) xs := by
  unfold pySlice
  split <;> exact List.take_sublist _ _

/-- On any loaded table, `get_top_engaging_posts` is: filter, then stable
descending sort, then Python slice. -/
theorem get_top_eq (rows : List Record) (tags0 : List String)
    (length tag : String) (n : Int) :
    get_top_engaging_posts ⟨some ⟨stdCols, rows⟩, tags0⟩ length tag n
      = if (get_filtered_posts ⟨some ⟨stdCols, rows⟩, tags0⟩ length tag).isEmpty
        then []
        else pySlice n
          ((get_filtered_posts ⟨some ⟨stdCols, rows⟩, tags0⟩ length tag).mergeSort engGE) := by
  have heng : stdCols.contains "engagement" = true := by decide
  by_cases hempty : rows.isEmpty
  · have hfil : get_filtered_posts ⟨some ⟨stdCols, rows⟩, tags0⟩ length tag = [] := by
      simp [get_filtered_posts, hempty]
    simp [get_top_engaging_posts, hempty, hfil]
  · simp only [get_top_engaging_posts, heng, Bool.not_true, Bool.false_eq_true, if_false,
      hempty]

/-- C2: the selector output is sorted by engagement descending, and within
any one engagement value the output preserves the relative order of the
filtered table (which `get_filtered_posts` keeps in table order): Python
`sorted(..., reverse=True)` is stable. -/
theorem c2_sorted_stable (rows : List Record) (tags0 : List String)
    (length tag : String) (n : Int) :
    List.Pairwise (fun a b : PostOut => b.engagement ≤ a.engagement)
        (get_top_engaging_posts ⟨some ⟨stdCols, rows⟩, tags0⟩ length tag n) ∧
      ∀ e : Int,
        List.Sublist
          ((get_top_engaging_posts ⟨some ⟨stdCols, rows⟩, tags0⟩ length tag n).filter
            (fun p => p.engagement == e))
          ((get_filtered_posts ⟨some ⟨stdCols, rows⟩, tags0⟩ length tag).filter
            (fun p => p.engagement == e)) := by
  rw [get_top_eq]
  by_cases h : (get_filtered_posts ⟨some ⟨stdCols, rows⟩, tags0⟩ length tag).isEmpty
  · simp [h, List.nil_sublist]
  · rw [if_neg h]
    constructor
    · have hs := List.sorted_mergeSort engGE_trans engGE_total
        (get_filtered_posts ⟨some ⟨stdCols, rows⟩, tags0⟩ length tag)
      have hp := hs.sublist (pySlice_sublist n _)
      exact hp.imp fun hab => by simpa [engGE, decide_eq_true_eq] using hab
    · intro e
      have h1 := (pySlice_sublist n
        ((get_filtered_posts ⟨some ⟨stdCols, rows⟩, tags0⟩ length tag).mergeSort
          engGE)).filter (fun p => p.engagement == e)
      rwa [mergeSort_filter_eng] at h1

/-- C4: with `n ≥ 0`, the selector returns at most `n` records; exactly none
when `n = 0`; and all matching records (as a permutation of the filtered
set, no padding) when `n` is at least the number of matches. -/
theorem c4_truncation (rows : List Record) (tags0 : List String)
    (length tag : String) (n : Int) (hn : 0 ≤ n) :
    (get_top_engaging_posts ⟨some ⟨stdCols, rows⟩, tags0⟩ length tag n).length ≤ n.toNat ∧
      (n = 0 → get_top_engaging_posts ⟨some ⟨stdCols, rows⟩, tags0⟩ length tag n = []) ∧
      ((get_filtered_posts ⟨some ⟨stdCols, rows⟩, tags0⟩ length tag).length ≤ n.toNat →
        List.Perm (get_top_engaging_posts ⟨some ⟨stdCols, rows⟩, tags0⟩ length tag n)
          (get_filtered_posts ⟨some ⟨stdCols, rows⟩, tags0⟩ length tag)) := by
  rw [get_top_eq]
  by_cases h : (get_filtered_posts ⟨some ⟨stdCols, rows⟩, tags0⟩ length tag).isEmpty
  · rw [List.isEmpty_iff] at h
    simp [h]
  · rw [if_neg (by rwa [List.isEmpty_iff] at h ⊢)]
    unfold pySlice
    rw [if_pos hn]
    refine ⟨by simp, fun h0 => by subst h0; simp, fun hle => ?_⟩
    have hlen : ((get_filtered_posts ⟨some ⟨stdCols, rows⟩, tags0⟩ length tag).mergeSort
        engGE).length = (get_filtered_posts ⟨some ⟨stdCols, rows⟩, tags0⟩ length tag).length :=
      List.length_mergeSort _
    rw [List.take_of_length_le (by omega)]
    exact List.mergeSort_perm _ _

/-- C10: with a negative `n` and at least one match, the selector neither
raises nor returns `[]` by default: Python slicing keeps the ranked matches
minus the last `|n|`, and the result is empty exactly when `|n|` reaches
the number of matches. -/
theorem c10_negative_slice (rows : List Record) (tags0 : List String)
    (length tag : String) (n : Int) (hn : n < 0)
    (hne : get_filtered_posts ⟨some ⟨stdCols, rows⟩, tags0⟩ length tag ≠ []) :
    (get_top_engaging_posts ⟨some ⟨stdCols, rows⟩, tags0⟩ length tag n
        = ((get_filtered_posts ⟨some ⟨stdCols, rows⟩, tags0⟩ length tag).mergeSort
            engGE).take
          (((get_filtered_posts ⟨some ⟨stdCols, rows⟩, tags0⟩ length tag).mergeSort
              engGE).length - (-n).toNat)) ∧
      (get_top_engaging_posts ⟨some ⟨stdCols, rows⟩, tags0⟩ length tag n = [] ↔
        ((get_filtered_posts ⟨some ⟨stdCols, rows⟩, tags0⟩ length tag).mergeSort
            engGE).length ≤ (-n).toNat) := by
  rw [get_top_eq]
  rw [if_neg (by rwa [List.isEmpty_iff])]
  unfold pySlice
  rw [if_neg (by omega)]
  refine ⟨rfl, ?_⟩
  have hranked : ((get_filtered_posts ⟨some ⟨stdCols, rows⟩, tags0⟩ length tag).mergeSort
      engGE) ≠ [] := by
    intro hcon
    have := List.mergeSort_perm
      (get_filtered_posts ⟨some ⟨stdCols, rows⟩, tags0⟩ length tag) engGE
    rw [hcon] at this
    exact hne this.symm.eq_nil
  rw [List.take_eq_nil_iff]
  constructor
  · rintro (h0 | hcon)
    · omega
    · exact absurd hcon hranked
  · intro hle
    left
    omega

/-- C5: a missing file, an unreadable file, and invalid JSON all degrade to
the same state: a table with zero records but the full six-column schema,
an empty tag index, and empty selector output for every query; no
exception reaches the caller (`init` is total on these inputs). -/
theorem c5_failed_load_empty :
    (init .fileMissing).df = some emptyFrame ∧
    (init .ioError).df = some emptyFrame ∧
    (init (.content .badJson)).df = some emptyFrame ∧
    emptyFrame.columns = ["text", "line_count", "tags", "language", "length", "engagement"] ∧
    emptyFrame.rows = [] ∧
    get_tags (init .fileMissing) = [] ∧
    get_tags (init .ioError) = [] ∧
    get_tags (init (.content .badJson)) = [] ∧
    ∀ length tag n,
      get_top_engaging_posts (init .fileMissing) length tag n = [] ∧
      get_top_engaging_posts (init .ioError) length tag n = [] ∧
      get_top_engaging_posts (init (.content .badJson)) length tag n = [] :=
  ⟨rfl, rfl, rfl, rfl, rfl, rfl, rfl, rfl, fun _ _ _ => ⟨rfl, rfl, rfl⟩⟩

/-- C9: `load_posts` overwrites all instance state, so its result does not
depend on the prior state: loading the same file contents twice yields the
same state as loading once, hence identical tag indices and identical
selector results for every fixed query. -/
theorem c9_load_deterministic (s1 s2 : State) (c : FileContent) :
    load_posts s1 c = load_posts s2 c ∧
    get_tags (load_posts (load_posts s1 c) c) = get_tags (load_posts s1 c) ∧
    ∀ length tag n,
      get_top_engaging_posts (load_posts (load_posts s1 c) c) length tag n
        = get_top_engaging_posts (load_posts s1 c) length tag n := by
  have h : ∀ s s' : State, load_posts s c = load_posts s' c := by
    intro s s'
    cases c <;> rfl
  exact ⟨h s1 s2, by rw [h (load_posts s1 c) s1],
    fun _ _ _ => by rw [h (load_posts s1 c) s1]⟩

/-- A post whose `tags` array mixes a string and a number. -/
def mixedTagsPost : RawPost :=
  { text := some (jstr "C"), line_count := some (jnum 3),
    tags := some (jlist [JScalar.jstr "AI", JScalar.jnum 42]),
    language := some (jstr "English"), engagement := some (jnum 7) }

/-- A post whose `tags` value is the scalar string `"AI"`, not a list. -/
def scalarTagsPost : RawPost :=
  { text := some (jstr "E"), line_count := some (jnum 3),
    tags := some (jstr "AI"),
    language := some (jstr "English"), engagement := some (jnum 3) }

/-- C6 (counterexample): loading a record whose source `tags` list is
`["AI", 42]` keeps the non-string entry `42` in the record's `tags` field
(only the tag index drops it), so "the tags field is a list whose entries
are all strings" and "non-string entries are dropped silently" are both
false for the stored record. -/
theorem c6_counterexample :
    (init (.content (.parsed [mixedTagsPost]))).df
        = some ⟨stdCols, [loadRecord true mixedTagsPost]⟩ ∧
      (loadRecord true mixedTagsPost).tags = [JScalar.jstr "AI", JScalar.jnum 42] ∧
      ((loadRecord true mixedTagsPost).tags.all JScalar.isStr) = false :=
  ⟨rfl, rfl, rfl⟩

/-- C6 (amended): a source `tags` value that is a list is stored verbatim
(non-string entries retained; they are dropped only from the tag index),
while a non-list `tags` value becomes the empty list, and such a record
fails the tag filter for every query. -/
theorem c6_tags_amended (textCol : Bool) (raw : RawPost) :
    (∀ xs, raw.tags = some (jlist xs) → (loadRecord textCol raw).tags = xs) ∧
      ((∀ xs, raw.tags ≠ some (jlist xs)) →
        (loadRecord textCol raw).tags = [] ∧
          ∀ length tag, rowMatches length tag (loadRecord textCol raw) = false) := by
  constructor
  · intro xs h
    simp [loadRecord, h]
  · intro h
    have htags : (loadRecord textCol raw).tags = [] := by
      rcases hv : raw.tags with _ | v
      · simp [loadRecord, hv]
      · cases v with
        | jlist xs => exact absurd hv (h xs)
        | jstr s => simp [loadRecord, hv]
        | jnum k => simp [loadRecord, hv]
        | jbool b => simp [loadRecord, hv]
        | jnull => simp [loadRecord, hv]
    refine ⟨htags, fun length tag => ?_⟩
    simp [rowMatches, htags]

/-- C6 (witness for the amended theorem): the scalar-tags record loads with
empty `tags` and never matches the tag filter. -/
theorem c6_witness :
    (loadRecord true scalarTagsPost).tags = [] ∧
      rowMatches "Short" "AI" (loadRecord true scalarTagsPost) = false :=
  have h := (c6_tags_amended true scalarTagsPost).2 (fun xs hx => by simp [scalarTagsPost] at hx)
  ⟨h.1, h.2 "Short" "AI"⟩

/-- A post with a negative source engagement score. -/
def negEngagementPost : RawPost :=
  { text := some (jstr "D"), line_count := some (jnum 3),
    tags := some (jlist [JScalar.jstr "AI"]),
    language := some (jstr "English"), engagement := some (jnum (-5)) }

/-- A post whose engagement is JSON null. -/
def nullEngagementPost : RawPost :=
  { text := some (jstr "F"), line_count := some (jnum 3),
    tags := some (jlist [JScalar.jstr "AI"]),
    language := some (jstr "English"), engagement := some jnull }

/-- C7 (counterexample): a source engagement of `-5` is stored as `-5`
(`pd.to_numeric` + `fillna(0)` + `astype(int)` never clamps), so "every
stored engagement value is ≥ 0" is false. -/
theorem c7_counterexample :
    (init (.content (.parsed [negEngagementPost]))).df
        = some ⟨stdCols, [loadRecord true negEngagementPost]⟩ ∧
      (loadRecord true negEngagementPost).engagement = -5 ∧
      ¬ (0 ≤ (loadRecord true negEngagementPost).engagement) :=
  ⟨rfl, rfl, by decide⟩

/-- C7 (amended): engagement defaults to `0` when the source value is
absent, null, a list, or a non-numeric string; a numeric source value is
stored as-is (in particular a negative number stays negative), and a
numeric string parses to its value. -/
theorem c7_engagement_amended (textCol : Bool) (raw : RawPost) :
    ((raw.engagement = none ∨ raw.engagement = some jnull ∨
        (∃ xs, raw.engagement = some (jlist xs)) ∨
        (∃ s, raw.engagement = some (jstr s) ∧ s.toInt? = none)) →
      (loadRecord textCol raw).engagement = 0) ∧
      (∀ k, raw.engagement = some (jnum k) → (loadRecord textCol raw).engagement = k) ∧
      (∀ s k, raw.engagement = some (jstr s) → s.toInt? = some k →
        (loadRecord textCol raw).engagement = k) := by
  refine ⟨?_, ?_, ?_⟩
  · rintro (h | h | ⟨xs, h⟩ | ⟨s, h, hs⟩) <;> simp [loadRecord, toNumeric, h, *]
  · intro k h
    simp [loadRecord, toNumeric, h]
  · intro s k h hs
    simp [loadRecord, toNumeric, h, hs]

/-- C7 (witness for the amended theorem): a null engagement loads as `0`. -/
theorem c7_witness : (loadRecord true nullEngagementPost).engagement = 0 :=
  (c7_engagement_amended true nullEngagementPost).1 (Or.inr (Or.inl rfl))

/-- Membership in the flattened string tags of a row. -/
theorem mem_stringTags (r : Record) (t : String) :
    t ∈ stringTags r ↔ JScalar.jstr t ∈ r.tags := by
  simp only [stringTags, List.mem_filterMap]
  constructor
  · rintro ⟨v, hv, heq⟩
    cases v with
    | jstr s =>
      simp only [Option.some.injEq] at heq
      subst heq
      exact hv
    | jnum k => simp at heq
    | jbool b => simp at heq
    | jnull => simp at heq
  · intro h
    exact ⟨JScalar.jstr t, h, rfl⟩

/-- C8: after every load, the tag index is sorted (native case-sensitive
string order), duplicate-free, and contains exactly the strings appearing
in some loaded record's `tags` list.  The index is a pure function of the
file contents (see also `load_posts`), computed once per load. -/
theorem c8_tag_index (s : State) (c : FileContent) :
    List.Pairwise (fun a b : String => a ≤ b) (get_tags (load_posts s c)) ∧
      (get_tags (load_posts s c)).Nodup ∧
      ∀ t : String, t ∈ get_tags (load_posts s c) ↔
        ∃ df, (load_posts s c).df = some df ∧ ∃ r ∈ df.rows, JScalar.jstr t ∈ r.tags := by
  have htrans : ∀ a b c : String, (fun a b : String => decide (a ≤ b)) a b →
      (fun a b : String => decide (a ≤ b)) b c → (fun a b : String => decide (a ≤ b)) a c := by
    intro a b c hab hbc
    simp only [decide_eq_true_eq] at *
    exact le_trans hab hbc
  have htotal : ∀ a b : String,
      (fun a b : String => decide (a ≤ b)) a b || (fun a b : String => decide (a ≤ b)) b a := by
    intro a b
    rcases le_total a b with h | h <;> simp [h]
  cases c with
  | badJson => simp [load_posts, get_tags, emptyFrame]
  | parsed posts =>
    by_cases hp : posts.isEmpty
    · simp [load_posts, hp, get_tags, emptyFrame]
    · simp only [load_posts, hp, Bool.false_eq_true, if_false, get_tags]
      refine ⟨?_, ?_, ?_⟩
      · have hs := List.sorted_mergeSort htrans htotal
          ((posts.map (loadRecord (posts.any fun p => p.text.isSome))).flatMap stringTags).dedup
        exact hs.imp fun h => by simpa using h
      · have hperm := List.mergeSort_perm
          ((posts.map (loadRecord (posts.any fun p => p.text.isSome))).flatMap stringTags).dedup
          (fun a b : String => decide (a ≤ b))
        exact hperm.nodup_iff.mpr (List.nodup_dedup _)
      · intro t
        simp only [sortedUniqueTags, List.mem_mergeSort, List.mem_dedup, List.mem_flatMap,
          Option.some.injEq, exists_eq_left, mem_stringTags]
        constructor
        · rintro ⟨r, hr, ht⟩
          exact ⟨⟨stdCols, posts.map (loadRecord (posts.any fun p => p.text.isSome))⟩,
            rfl, r, hr, ht⟩
        · rintro ⟨df, hdf, r, hr, ht⟩
          cases hdf
          exact ⟨r, hr, ht⟩

/-- Witness for `c4_truncation` at the documented two-post sample corpus
with `n = 2`. -/
theorem c4_witness :
    (0 : Int) ≤ 2 ∧
      ((get_top_engaging_posts ⟨some ⟨stdCols, sampleRows⟩, ["AI"]⟩ "Short" "AI" 2).length
          ≤ (2 : Int).toNat ∧
        ((2 : Int) = 0 →
          get_top_engaging_posts ⟨some ⟨stdCols, sampleRows⟩, ["AI"]⟩ "Short" "AI" 2 = []) ∧
        ((get_filtered_posts ⟨some ⟨stdCols, sampleRows⟩, ["AI"]⟩ "Short" "AI").length
            ≤ (2 : Int).toNat →
          List.Perm (get_top_engaging_posts ⟨some ⟨stdCols, sampleRows⟩, ["AI"]⟩ "Short" "AI" 2)
            (get_filtered_posts ⟨some ⟨stdCols, sampleRows⟩, ["AI"]⟩ "Short" "AI"))) :=
  ⟨by decide, c4_truncation sampleRows ["AI"] "Short" "AI" 2 (by decide)⟩

/-- Witness for `c10_negative_slice` at the documented two-post sample
corpus with `n = -1`. -/
theorem c10_witness :
    (-1 : Int) < 0 ∧
      get_filtered_posts ⟨some ⟨stdCols, sampleRows⟩, ["AI"]⟩ "Short" "AI" ≠ [] ∧
      ((get_top_engaging_posts ⟨some ⟨stdCols, sampleRows⟩, ["AI"]⟩ "Short" "AI" (-1)
          = ((get_filtered_posts ⟨some ⟨stdCols, sampleRows⟩, ["AI"]⟩ "Short" "AI").mergeSort
              engGE).take
            (((get_filtered_posts ⟨some ⟨stdCols, sampleRows⟩, ["AI"]⟩ "Short" "AI").mergeSort
                engGE).length - (-(-1 : Int)).toNat)) ∧
        (get_top_engaging_posts ⟨some ⟨stdCols, sampleRows⟩, ["AI"]⟩ "Short" "AI" (-1) = [] ↔
          ((get_filtered_posts ⟨some ⟨stdCols, sampleRows⟩, ["AI"]⟩ "Short" "AI").mergeSort
              engGE).length ≤ (-(-1 : Int)).toNat)) :=
  ⟨by decide, by decide,
    c10_negative_slice sampleRows ["AI"] "Short" "AI" (-1) (by decide) (by decide)⟩

end FewShotPosts
